import Mathlib

set_option maxRecDepth 100000

/-!
Verification of the transcript acquisition subsystem of the ekko repository.

The definitions below are a shallow embedding of the Python sources
`ekko_prototype/pages/tools/transcript_fetcher.py`,
`ekko_prototype/pages/tools/youtube_detector.py`,
`ekko_prototype/pages/tools/openai_whisper_transcriber.py` and the data
model in `ekko_prototype/models.py`.  External collaborators (the video
search facility, subtitle download, audio downloader, the speech backends
and the filesystem) are modelled as oracle functions collected in an
`Env` structure; a collaborator call that may raise a Python exception is
modelled as `Except String`.  Python floats in the quality scorer are
modelled exactly as rationals (every score is a multiple of 1/100 and the
comparisons performed by the code are exact at these magnitudes).
-/

/-- Characters treated as whitespace by the Python `str.split()` method
(ASCII fragment, which covers all inputs considered here). -/
def pyIsSpace (c : Char) : Bool :=
  c = ' ' || c = '\t' || c = '\n' || c = '\r' || c = '\x0b' || c = '\x0c'

/-- Split a character list at every character satisfying `p`, keeping empty
pieces, as Python `str.split(sep)` does for a one-character separator. -/
def splitSepBy (p : Char → Bool) : List Char → List (List Char)
  | [] => [[]]
  | c :: t =>
    if p c then [] :: splitSepBy p t
    else
      match splitSepBy p t with
      | [] => [[c]]
      | h :: rt => (c :: h) :: rt

/-- Python `text.split()`: split on whitespace runs, dropping empty pieces. -/
def pyWordsCL (l : List Char) : List (List Char) :=
  (splitSepBy pyIsSpace l).filter (· ≠ [])

/-- Number of words of a string in the sense of Python `len(text.split())`. -/
def wordCount (s : String) : Nat :=
  (pyWordsCL s.data).length

/-- Python `str.lower()` (ASCII fragment). -/
def lowerStr (s : String) : String :=
  String.mk (s.data.map Char.toLower)

/-- Test whether `pat` occurs at the very start of `s`. -/
def leadsWith : List Char → List Char → Bool
  | [], _ => true
  | _ :: _, [] => false
  | p :: ps, c :: cs => p == c && leadsWith ps cs

/-- Test whether `pat` occurs somewhere inside `s`, as the Python
`pat in s` substring test. -/
def hasSub (pat : List Char) : List Char → Bool
  | [] => leadsWith pat []
  | c :: t => leadsWith pat (c :: t) || hasSub pat t

/-- Python `needle in hay` substring containment on strings. -/
def pyIn (needle hay : String) : Bool :=
  hasSub needle.data hay.data

/-- Automaton state for counting non-overlapping occurrences of the
three-dot pattern; `k` is the number of consecutive dots seen so far in
the current run (0, 1 or 2).  For the all-dot pattern this computes the
same value as Python `text.count("...")`, which scans left to right and
on a match resumes after the matched occurrence: each maximal run of `r`
dots contributes `r / 3` occurrences. -/
def ellState : Nat → List Char → Nat
  | _, [] => 0
  | k, c :: t =>
    if c = '.' then
      if k = 2 then ellState 0 t + 1 else ellState (k + 1) t
    else ellState 0 t

/-- Python `transcript.count("...")`. -/
def countEll (l : List Char) : Nat := ellState 0 l

/-- Penalty (in hundredths) applied by `calculate_quality_score` for the
transcript length: word count below 500 costs 0.3, in [500, 1000) costs
0.1 (youtube_detector.py lines 393-397). -/
def bandPenalty (wc : Nat) : Nat :=
  if wc < 500 then 30 else if wc < 1000 then 10 else 0

/-- Penalty for the literal case-insensitive marker [inaudible]
(youtube_detector.py line 400). -/
def inaudPenalty (t : String) : Nat :=
  if pyIn "[inaudible]" (lowerStr t) then 10 else 0

/-- Penalty for the literal case-insensitive marker [music]
(youtube_detector.py line 402). -/
def musicPenalty (t : String) : Nat :=
  if pyIn "[music]" (lowerStr t) then 5 else 0

/-- Penalty for more than 10 three-dot ellipsis runs
(youtube_detector.py line 404). -/
def ellPenalty (t : String) : Nat :=
  if countEll t.data > 10 then 5 else 0

/-- Sentence-structure penalty (youtube_detector.py lines 408-411): split
on the dot character, average the word lengths of the pieces and penalise
an average below 5 or above 30.  The float comparisons
`avg < 5` and `avg > 30` with `avg = total / max(n, 1)` are modelled by
the exact integer comparisons `total < 5 * n` and `30 * n < total`. -/
def structPenalty (t : String) : Nat :=
  let sents := splitSepBy (· = '.') t.data
  let n := max sents.length 1
  let total := (sents.map (fun s => (pyWordsCL s).length)).sum
  if total < 5 * n || 30 * n < total then 10 else 0

/-- YouTubePodcastDetector.calculate_quality_score in hundredths: the
score starts at 1.0, the penalties are subtracted and the result clamped
to [0, 1] (the truncated subtraction on Nat performs the clamping at 0;
the sum of all penalties is at most 0.6 so the upper clamp is a no-op). -/
def score100 (t : String) : Nat :=
  if t = "" then 0
  else
    100 - (bandPenalty (wordCount t) + inaudPenalty t + musicPenalty t
           + ellPenalty t + structPenalty t)

/-- YouTubePodcastDetector.calculate_quality_score as a rational in [0, 1]. -/
def calculate_quality_score (t : String) : ℚ :=
  (score100 t : ℚ) / 100

/-- The 600-word text produced by repeating the five characters of
the word marker: the string "word " repeated 600 times. -/
def w600 : String :=
  String.mk (List.flatten (List.replicate 600 ['w', 'o', 'r', 'd', ' ']))

/-! ## Data model (ekko_prototype/models.py) -/

/-- Enumeration TranscriptSource (models.py lines 15-31). -/
inductive TranscriptSource where
  | youtube_manual
  | youtube_auto
  | whisper_local
  | whisper_openai
  | whisper_remote
  | not_available
deriving DecidableEq

/-- The string value of each TranscriptSource member. -/
def TranscriptSource.value : TranscriptSource → String
  | .youtube_manual => "youtube_manual"
  | .youtube_auto => "youtube_auto"
  | .whisper_local => "whisper_local"
  | .whisper_openai => "whisper_openai"
  | .whisper_remote => "whisper_remote"
  | .not_available => "not_available"

/-- The enum constructor TranscriptSource(value); an unknown value raises
ValueError, modelled as none. -/
def sourceOfString (s : String) : Option TranscriptSource :=
  if s = "youtube_manual" then some .youtube_manual
  else if s = "youtube_auto" then some .youtube_auto
  else if s = "whisper_local" then some .whisper_local
  else if s = "whisper_openai" then some .whisper_openai
  else if s = "whisper_remote" then some .whisper_remote
  else if s = "not_available" then some .not_available
  else none

/-- Values stored in the open metadata map (strings and integers are the
only value shapes the core writes). -/
inductive MetaVal where
  | str (v : String)
  | int (v : Int)
deriving DecidableEq

/-- Pydantic model TranscriptResult (models.py lines 144-186). -/
structure TranscriptResult where
  text : Option String
  source : TranscriptSource
  quality_score : ℚ
  language : Option String
  duration_seconds : Option Int
  word_count : Option Nat
  metadata : List (String × MetaVal)
deriving DecidableEq

/-- Construction of a TranscriptResult the way every core call site does
it: text, source, quality_score and metadata are passed, and language,
duration_seconds and word_count keep their None defaults.  The
calculate_word_count validator (models.py lines 171-186) never runs for
these constructions: pydantic does not validate omitted or defaulted
fields, and a field_validator written with a self first parameter is
invalid in pydantic v2 anyway, so word_count stays None. -/
def mkResult (text : Option String) (source : TranscriptSource) (qs : ℚ)
    (md : List (String × MetaVal)) : TranscriptResult :=
  ⟨text, source, qs, none, none, none, md⟩

/-- Pydantic model TranscriptConfig (models.py lines 277-287).  Note the
language list field is named languages; there is no youtube_languages
field. -/
structure TranscriptConfig where
  prefer_youtube : Bool
  use_openai_whisper : Bool
  use_remote_whisper : Bool
  cache_transcripts : Bool
  cache_dir : String
  max_cache_size_mb : Nat
  whisper_model : String
  languages : List String

/-- The default TranscriptConfig values. -/
def defaultConfig : TranscriptConfig :=
  ⟨true, true, false, true, "./transcript_cache", 500, "whisper-1", ["en"]⟩

/-- The on-disk JSON record written by _cache_transcript
(transcript_fetcher.py lines 388-394): exactly the four fields text,
source (as its string value), quality_score and metadata. -/
structure CacheRecord where
  text : Option String
  source : String
  quality_score : ℚ
  metadata : List (String × MetaVal)
deriving DecidableEq

/-- Cache keys are the sanitized (podcast, episode) pair. -/
abbrev CacheKey := String × String

/-- The cache directory contents, as an association list ordered by file
modification time, oldest first (a rewrite of an existing key refreshes
its mtime, i.e. moves the entry to the end). -/
abbrev CacheState := List (CacheKey × CacheRecord)

/-- One search result entry as used by search_youtube_for_episode: the id
and title fields read from each yt-dlp entry. -/
structure Entry where
  id : String
  title : String
deriving DecidableEq

/-- The outcome of ydl.extract_info in fetch_youtube_transcript: the info
dictionary fields the code reads, plus which subtitle file exists per
requested language (file contents keyed by language code). -/
structure YtFetchRes where
  title : String
  duration : Int
  sub : String → Option String

/-- Response of the remote transcription service POST. -/
structure RemoteResp where
  status : Nat
  path : Option String

/-- Oracle bundle for every external collaborator and filesystem effect.
A collaborator that may raise a Python exception returns Except String. -/
structure Env where
  feedTitle : String → Except String String
  ytSearch : String → Except String (Option (List (Option Entry)))
  ytFetch : String → List String → Except String YtFetchRes
  download : String → String → String → Except String (Option String)
  openaiInit : Except String Unit
  fileSize : String → Option Nat
  openaiApi : String → String → String → Except String String
  transcriptWrite : String → Except String Unit
  remotePost : String → String → String → Except String RemoteResp
  fileExists : String → Bool
  readFile : String → Except String String
  localTranscribe : String → Except String (Option String)
  cacheWrite : CacheKey → Except String Unit
  recordSize : CacheRecord → Nat

/-- Python truthiness of an optional string (None and the empty string
are falsy). -/
def truthyText : Option String → Bool
  | some s => !s.data.isEmpty
  | none => false

/-! ## YouTubePodcastDetector (youtube_detector.py) -/

/-- The static youtube_channels allow-list (youtube_detector.py lines
36-50). -/
def youtube_channels : List (String × String) :=
  [("The Joe Rogan Experience", "joerogan"),
   ("Lex Fridman Podcast", "lexfridman"),
   ("The Tim Ferriss Show", "tim ferriss"),
   ("Huberman Lab", "hubermanlab"),
   ("The Daily", "nytimes the daily"),
   ("This American Life", "this american life"),
   ("Conan O\x27Brien Needs a Friend", "conan obrien"),
   ("The Diary Of A CEO", "steven bartlett"),
   ("All-In Podcast", "all in podcast"),
   ("My First Million", "my first million"),
   ("Lenny\x27s Podcast", "Lenny\x27s Podcast"),
   ("Lennybot", "Lenny\x27s Podcast")]

/-- Dictionary lookup in the allow-list. -/
def channelsLookup (name : String) : Option String :=
  (youtube_channels.find? (fun it => it.1 == name)).map (·.2)

/-- Characters allowed in a video id by the regex class [0-9A-Za-z_-]. -/
def validIdChar (c : Char) : Bool :=
  c.isAlphanum || c = '_' || c = '-'

/-- Scan for the first position matching the leading extraction pattern:
either v= or a slash, followed by eleven id-class characters (the
captured group).  The remaining three patterns of extract_video_id are
subsumed: any occurrence of embed/, watch?v= or youtu.be/ followed by an
eleven-character id contains a slash or v= followed by the same eleven
characters, and the captured group always has length exactly 11 so the
length check in the source always passes. -/
def scanVid : List Char → Option String
  | [] => none
  | c :: t =>
    if c = 'v' && leadsWith ['='] t
        && ((t.drop 1).take 11).length = 11 && ((t.drop 1).take 11).all validIdChar then
      some (String.mk ((t.drop 1).take 11))
    else if c = '/' && (t.take 11).length = 11 && (t.take 11).all validIdChar then
      some (String.mk (t.take 11))
    else scanVid t

/-- YouTubePodcastDetector.extract_video_id (youtube_detector.py lines
52-80): a domain check on the lowercased url, then the regex scan over
the original url. -/
def extract_video_id (url : String) : Option String :=
  let lurl := lowerStr url
  if pyIn "youtube.com" lurl || pyIn "youtu.be" lurl || pyIn "youtube-nocookie.com" lurl then
    scanVid url.data
  else none

/-- The search query built by search_youtube_for_episode (lines 103-109):
a special case for any podcast whose lowercased name contains lenny, then
the allow-list alias, then the plain name. -/
def buildQuery (podcast episode : String) : String :=
  if pyIn "lenny" (lowerStr podcast) then "Lenny\x27s Podcast " ++ episode
  else
    match channelsLookup podcast with
    | some ch => ch ++ " " ++ episode
    | none => podcast ++ " " ++ episode

/-- The video url built for an entry id. -/
def videoUrl (id : String) : String :=
  "https://www.youtube.com/watch?v=" ++ id

/-- The candidate loop of search_youtube_for_episode (lines 129-143):
skip null entries; accept the first entry whose lowercased title shares
at least two of the first five words (longer than three characters) of
the lowercased episode title, or contains its first thirty characters
verbatim. -/
def matchFirst (episode : String) : List (Option Entry) → Option String
  | [] => none
  | none :: rest => matchFirst episode rest
  | some en :: rest =>
    let vt := lowerStr en.title
    let ws := (pyWordsCL (lowerStr episode).data).take 5
    let mc := (ws.filter (fun w => decide (w.length > 3) && hasSub w vt.data)).length
    if 2 ≤ mc || pyIn (String.mk ((lowerStr episode).data.take 30)) vt then
      some (videoUrl en.id)
    else matchFirst episode rest

/-- YouTubePodcastDetector.search_youtube_for_episode (lines 82-157).
The fallback to the first search result (lines 145-150) is guarded by
the substring test lenny on the lowercased podcast name, not by
allow-list membership; with an empty entries list the subscript raises
IndexError which the surrounding handler converts to None, and a null
first entry is falsy. -/
def search_youtube_for_episode (env : Env) (podcast episode : String) : Option String :=
  match env.ytSearch (buildQuery podcast episode) with
  | .error _ => none
  | .ok none => none
  | .ok (some entries) =>
    match matchFirst episode entries with
    | some u => some u
    | none =>
      if pyIn "lenny" (lowerStr podcast) then
        match entries with
        | [] => none
        | none :: _ => none
        | some e0 :: _ => some (videoUrl e0.id)
      else none

/-- YouTubePodcastDetector.check_youtube_availability (lines 337-375).
Both branches of the allow-list membership test invoke
search_youtube_for_episode with identical arguments, so the model makes
the single call. -/
def check_youtube_availability (env : Env) (rssUrl episode : String) : Bool × Option String :=
  match env.feedTitle rssUrl with
  | .error _ => (false, none)
  | .ok name =>
    let u := search_youtube_for_episode env name episode
    (u.isSome, u)

/-- Python str.strip of a character list. -/
def stripCL (l : List Char) : List Char :=
  ((l.dropWhile pyIsSpace).reverse.dropWhile pyIsSpace).reverse

/-- Join pieces with single spaces. -/
def joinSpaceCL (ls : List (List Char)) : List Char :=
  (List.intersperse [' '] ls).flatten

/-- YouTubePodcastDetector._parse_vtt_file (lines 281-315) applied to the
file content: split into lines, strip each, keep the lines that are
non-empty, do not start with WEBVTT, contain no arrow and are not all
digits, join with spaces and collapse whitespace runs. -/
def parse_vtt (content : String) : Option String :=
  let lines := (splitSepBy (· = '\n') content.data).map stripCL
  let kept := lines.filter (fun l =>
    decide (l ≠ []) && !leadsWith "WEBVTT".data l && !hasSub "-->".data l
      && !(l.all Char.isDigit))
  some (String.mk (joinSpaceCL (pyWordsCL (joinSpaceCL kept))))

/-- An unavailable result carrying an error message, as built at every
failure site. -/
def unavailableErr (e : String) : TranscriptResult :=
  mkResult none .not_available 0 [("error", .str e)]

/-- The no-subtitles result of fetch_youtube_transcript (lines 263-270). -/
def noSubsResult (vid : String) : TranscriptResult :=
  mkResult none .not_available 0
    [("error", .str "No subtitles available"), ("video_id", .str vid)]

/-- The success branch of fetch_youtube_transcript (lines 241-261): parse
the first subtitle file and, when the parsed text is truthy, build the
result with the provenance source and score. -/
def subtitleResult (vid url : String) (res : YtFetchRes) (src : TranscriptSource)
    (qs : ℚ) (content : String) : TranscriptResult :=
  match parse_vtt content with
  | some text =>
    if text.data.isEmpty then noSubsResult vid
    else
      mkResult (some text) src qs
        [("video_id", .str vid), ("video_title", .str res.title),
         ("duration", .int res.duration),
         ("word_count", .int (wordCount text)), ("youtube_url", .str url)]
  | none => noSubsResult vid

/-- YouTubePodcastDetector.fetch_youtube_transcript (lines 159-279).  The
manual loop (lines 221-228) and the auto loop (lines 231-239) test the
same file names, so a file found at all is labelled youtube_manual with
score 1.0 and the auto branch is kept only for structural fidelity. -/
def fetch_youtube_transcript (env : Env) (url : String) (languages : List String) :
    TranscriptResult :=
  match extract_video_id url with
  | none => mkResult none .not_available 0 [("error", .str "Invalid YouTube URL")]
  | some vid =>
    match env.ytFetch url languages with
    | .error e => unavailableErr e
    | .ok res =>
      match languages.findSome? res.sub with
      | some content => subtitleResult vid url res .youtube_manual 1 content
      | none =>
        match languages.findSome? res.sub with
        | some content => subtitleResult vid url res .youtube_auto (8 / 10) content
        | none => noSubsResult vid

/-! ## OpenAIWhisperTranscriber (openai_whisper_transcriber.py) -/

/-- The 25 MB upload cap MAX_FILE_SIZE (line 24). -/
def MAX_FILE_SIZE : Nat := 25 * 1024 * 1024

/-- Python os.path.basename for forward-slash paths. -/
def pyBasename (p : String) : String :=
  String.mk ((splitSepBy (· = '/') p.data).getLastD [])

/-- The stem part of os.path.splitext: everything before the final dot
(identity when there is no dot; the hidden-file edge case does not arise
for the audio paths in scope). -/
def pySplitextStem (b : String) : String :=
  let parts := splitSepBy (· = '.') b.data
  if parts.length ≤ 1 then b
  else String.mk ((List.intersperse ['.'] parts.dropLast).flatten)

/-- The transcript side-file path written by _save_transcript (lines
271-290) with the default parent folder. -/
def save_transcript_path (audioPath : String) : String :=
  "./transcripts/" ++ pySplitextStem (pyBasename audioPath) ++ ".txt"

/-- Body of OpenAIWhisperTranscriber.transcribe (lines 109-147), before
the surrounding handler: a missing file returns None; a file over the
cap is routed to _transcribe_large_file which logs an error and returns
None (lines 205-240, chunking is explicitly not implemented); otherwise
the API is called and the transcript saved to a side file, and an
exception from either propagates to the handler. -/
def openai_transcribe_body (env : Env) (path lang prompt : String) :
    Except String (Option String) :=
  match env.fileSize path with
  | none => .ok none
  | some sz =>
    if sz > MAX_FILE_SIZE then .ok none
    else
      match env.openaiApi path lang prompt with
      | .error e => .error e
      | .ok text =>
        match env.transcriptWrite (save_transcript_path path) with
        | .error e => .error e
        | .ok _ => .ok (some text)

/-- OpenAIWhisperTranscriber.transcribe with its handler (lines 148-150):
every exception is caught, logged and converted to None. -/
def openai_transcribe (env : Env) (path lang prompt : String) : Option String :=
  match openai_transcribe_body env path lang prompt with
  | .ok v => v
  | .error _ => none

/-! ## UnifiedTranscriptFetcher (transcript_fetcher.py) -/

/-- The filesystem sanitization of _get_cache_path (lines 420-424):
alphanumerics, space, hyphen and underscore are kept, everything else
becomes an underscore. -/
def sanitizeName (s : String) : String :=
  String.mk (s.data.map (fun c =>
    if c.isAlphanum || c = ' ' || c = '-' || c = '_' then c else '_'))

/-- The cache key, i.e. the sanitized podcast/episode path pair of
_get_cache_path. -/
def cacheKey (podcast episode : String) : CacheKey :=
  (sanitizeName podcast, sanitizeName episode)

/-- Lookup of the record stored under a key. -/
def cacheFind (c : CacheState) (k : CacheKey) : Option CacheRecord :=
  (c.find? (fun it => it.1.1 == k.1 && it.1.2 == k.2)).map (·.2)

/-- Drop any record stored under a key (a rewrite replaces the file). -/
def removeKey (c : CacheState) (k : CacheKey) : CacheState :=
  c.filter (fun it => !(it.1.1 == k.1 && it.1.2 == k.2))

/-- The JSON record _cache_transcript writes for a result (lines
388-394). -/
def encodeRecord (r : TranscriptResult) : CacheRecord :=
  ⟨r.text, r.source.value, r.quality_score, r.metadata⟩

/-- Reconstruction of a TranscriptResult from a cache record in
_check_cache (lines 354-359): an invalid source string raises ValueError
and a quality score outside the pydantic bounds fails validation, both
caught and treated as a miss; language, duration_seconds and word_count
keep their None defaults (the word-count validator never runs for the
omitted field, see mkResult). -/
def decodeRecord (rec : CacheRecord) : Option TranscriptResult :=
  match sourceOfString rec.source with
  | none => none
  | some s =>
    if 0 ≤ rec.quality_score ∧ rec.quality_score ≤ 1 then
      some (mkResult rec.text s rec.quality_score rec.metadata)
    else none

/-- UnifiedTranscriptFetcher._check_cache (lines 327-364): nothing when
caching is disabled, otherwise read and decode the record under the key;
any read or parse error is a miss. -/
def check_cache_pure (cfg : TranscriptConfig) (cache : CacheState)
    (podcast episode : String) : Option TranscriptResult :=
  if cfg.cache_transcripts then
    (cacheFind cache (cacheKey podcast episode)).bind decodeRecord
  else none

/-- The _check_cache method never lets an exception escape: its body is
fully guarded except for the pure path computation. -/
def check_cache_m (cfg : TranscriptConfig) (cache : CacheState)
    (podcast episode : String) : Except String (Option TranscriptResult) :=
  .ok (check_cache_pure cfg cache podcast episode)

/-- Total byte size of the cache records (lines 431-432), with the JSON
byte size of a record abstracted by the Env oracle. -/
def sumSizes (szf : CacheRecord → Nat) (c : CacheState) : Nat :=
  (c.map (fun it => szf it.2)).sum

/-- The eviction loop of _manage_cache_size (lines 435-448): while the
total size exceeds the budget, delete the file with the oldest
modification time (the head of the mtime-ordered list). -/
def evictLoop (szf : CacheRecord → Nat) (maxB : Nat) : CacheState → CacheState
  | [] => []
  | x :: t => if sumSizes szf (x :: t) ≤ maxB then x :: t else evictLoop szf maxB t

/-- UnifiedTranscriptFetcher._cache_transcript (lines 366-406): a no-op
when caching is disabled or the text is falsy; otherwise write the
record (replacing any previous file under the key and giving it the
newest mtime) and run size management.  A write error is caught and
leaves the state unchanged. -/
def cache_transcript_caught (env : Env) (cfg : TranscriptConfig) (cache : CacheState)
    (podcast episode : String) (r : TranscriptResult) : CacheState :=
  if cfg.cache_transcripts && truthyText r.text then
    match env.cacheWrite (cacheKey podcast episode) with
    | .error _ => cache
    | .ok _ =>
      evictLoop env.recordSize (cfg.max_cache_size_mb * 1024 * 1024)
        (removeKey cache (cacheKey podcast episode)
          ++ [(cacheKey podcast episode, encodeRecord r)])
  else cache

/-- The _cache_transcript method never lets an exception escape. -/
def cache_transcript_m (env : Env) (cfg : TranscriptConfig) (cache : CacheState)
    (podcast episode : String) (r : TranscriptResult) : Except String CacheState :=
  .ok (cache_transcript_caught env cfg cache podcast episode r)

/-- UnifiedTranscriptFetcher._transcribe_remote (lines 281-325): POST to
the remote service; a 200 response yields the transcription_file_path
field, anything else (or an exception) yields None. -/
def transcribe_remote (env : Env) (audioUrl episode podcast : String) : Option String :=
  match env.remotePost audioUrl episode podcast with
  | .error _ => none
  | .ok resp => if resp.status = 200 then resp.path else none

/-- The attribute access self.config.youtube_languages performed at
transcript_fetcher.py line 159.  TranscriptConfig declares the field
languages (models.py line 286) and no youtube_languages field, and a
pydantic model raises AttributeError for an unknown attribute, so this
lookup always raises. -/
def config_youtube_languages (_ : TranscriptConfig) : Except String (List String) :=
  .error "AttributeError: youtube_languages"

/-- Body of _try_youtube_transcript (lines 148-163): check availability,
and when a video is found call fetch_youtube_transcript with the
(nonexistent) youtube_languages configuration attribute, whose lookup
raises before the fetch can happen. -/
def try_youtube_body (env : Env) (cfg : TranscriptConfig) (rssUrl episode : String) :
    Except String (Option TranscriptResult) :=
  match check_youtube_availability env rssUrl episode with
  | (true, some u) =>
    match config_youtube_languages cfg with
    | .error e => .error e
    | .ok langs => .ok (some (fetch_youtube_transcript env u langs))
  | _ => .ok none

/-- _try_youtube_transcript with its handler (lines 165-167): every
exception is caught and converted to None. -/
def try_youtube_caught (env : Env) (cfg : TranscriptConfig) (rssUrl episode : String) :
    Option TranscriptResult :=
  match try_youtube_body env cfg rssUrl episode with
  | .ok v => v
  | .error _ => none

/-- The _try_youtube_transcript method never lets an exception escape. -/
def try_youtube_m (env : Env) (cfg : TranscriptConfig) (rssUrl episode : String) :
    Except String (Option TranscriptResult) :=
  .ok (try_youtube_caught env cfg rssUrl episode)

/-- The context prompt built at transcript_fetcher.py line 219. -/
def whisperPrompt (episode podcast : String) : String :=
  "This is a podcast episode titled \x27" ++ episode ++ "\x27 from " ++ podcast ++ "."

/-- The orchestrator-side transcript file path (line 223). -/
def orchTranscriptPath (episode : String) : String :=
  "./transcripts/" ++ episode ++ ".txt"

/-- The message of the exception raised when no transcript was produced
(line 270). -/
def noOutputMsg : String := "Transcription failed - no output"

/-- Body of _try_whisper_transcript (lines 188-270), before the
surrounding handler.  Download the audio, run the configured backend,
and on truthy text build the result; the source tag is whisper_local
even for the hosted API backend (lines 253-257, the code chooses
WHISPER_LOCAL with a comment to consider adding WHISPER_OPENAI), and the
model metadata is whisper-1 for the hosted backend and the configured
model name otherwise (line 266). -/
def try_whisper_body (env : Env) (cfg : TranscriptConfig)
    (audioUrl episode podcast : String) : Except String TranscriptResult :=
  match env.download audioUrl episode podcast with
  | .error e => .error e
  | .ok none => .error "Failed to download audio file"
  | .ok (some localPath) =>
    if cfg.use_openai_whisper then
      match env.openaiInit with
      | .error e => .error e
      | .ok _ =>
        match openai_transcribe env localPath "en" (whisperPrompt episode podcast) with
        | some text =>
          if text.data.isEmpty then .error noOutputMsg
          else
            match env.transcriptWrite (orchTranscriptPath episode) with
            | .error e => .error e
            | .ok _ =>
              .ok (mkResult (some text) .whisper_local (calculate_quality_score text)
                [("audio_file", .str localPath),
                 ("transcript_file", .str (orchTranscriptPath episode)),
                 ("model", .str "whisper-1")])
        | none => .error noOutputMsg
    else if cfg.use_remote_whisper then
      match transcribe_remote env audioUrl episode podcast with
      | some pth =>
        if !pth.data.isEmpty && env.fileExists pth then
          match env.readFile pth with
          | .error e => .error e
          | .ok text =>
            if text.data.isEmpty then .error noOutputMsg
            else
              .ok (mkResult (some text) .whisper_remote (calculate_quality_score text)
                [("audio_file", .str localPath), ("transcript_file", .str pth),
                 ("model", .str cfg.whisper_model)])
        else .error noOutputMsg
      | none => .error noOutputMsg
    else
      match env.localTranscribe localPath with
      | .error e => .error e
      | .ok (some pth) =>
        if !pth.data.isEmpty && env.fileExists pth then
          match env.readFile pth with
          | .error e => .error e
          | .ok text =>
            if text.data.isEmpty then .error noOutputMsg
            else
              .ok (mkResult (some text) .whisper_local (calculate_quality_score text)
                [("audio_file", .str localPath), ("transcript_file", .str pth),
                 ("model", .str cfg.whisper_model)])
        else .error noOutputMsg
      | .ok none => .error noOutputMsg

/-- _try_whisper_transcript with its handler (lines 272-279): every
exception becomes an unavailable result carrying the exception message
in metadata. -/
def try_whisper_caught (env : Env) (cfg : TranscriptConfig)
    (audioUrl episode podcast : String) : TranscriptResult :=
  match try_whisper_body env cfg audioUrl episode podcast with
  | .ok r => r
  | .error e => unavailableErr e

/-- The _try_whisper_transcript method never lets an exception escape. -/
def try_whisper_m (env : Env) (cfg : TranscriptConfig)
    (audioUrl episode podcast : String) : Except String TranscriptResult :=
  .ok (try_whisper_caught env cfg audioUrl episode podcast)

/-- The no-audio-url result of get_transcript (lines 117-124). -/
def noAudioResult : TranscriptResult :=
  mkResult none .not_available 0 [("error", .str "No audio URL provided")]

/-- The whisper fallback of get_transcript (lines 109-124): with a truthy
audio url run the whisper stage, otherwise return the no-audio result. -/
def whisper_fallback (env : Env) (cfg : TranscriptConfig)
    (podcast episode : String) (audioUrl : Option String) : Except String TranscriptResult :=
  match audioUrl with
  | some a => if a.data.isEmpty then .ok noAudioResult else try_whisper_m env cfg a episode podcast
  | none => .ok noAudioResult

/-- UnifiedTranscriptFetcher.get_transcript (lines 60-130): cache lookup,
then the YouTube stage when preferred and an rss url is truthy, then the
whisper fallback when the intermediate result has no truthy text, then
the cache write on truthy text.  The method body has no try/except of
its own, so an exception from a stage method would propagate to the
caller; every stage method catches internally. -/
def get_transcript (env : Env) (cfg : TranscriptConfig) (cache : CacheState)
    (podcast episode : String) (audioUrl rssUrl : Option String) :
    Except String (TranscriptResult × CacheState) :=
  match (if cfg.cache_transcripts then check_cache_m cfg cache podcast episode else .ok none) with
  | .error e => .error e
  | .ok (some cached) => .ok (cached, cache)
  | .ok none =>
    match (match rssUrl with
           | some u =>
             if cfg.prefer_youtube && !u.data.isEmpty then try_youtube_m env cfg u episode
             else .ok none
           | none => .ok none) with
    | .error e => .error e
    | .ok r0 =>
      match (match r0 with
             | some r =>
               if truthyText r.text then Except.ok r
               else whisper_fallback env cfg podcast episode audioUrl
             | none => whisper_fallback env cfg podcast episode audioUrl) with
      | .error e => .error e
      | .ok r1 =>
        match (if truthyText r1.text && cfg.cache_transcripts then
                 cache_transcript_m env cfg cache podcast episode r1
               else .ok cache) with
        | .error e => .error e
        | .ok c2 => .ok (r1, c2)

/-! ## Predicates and concrete instances used by the theorems -/

/-- The spec invariant on TranscriptResult values: the text is absent
exactly when the source is unavailable and the quality score is zero. -/
def ResultInv (r : TranscriptResult) : Prop :=
  r.text = none ↔ (r.source = TranscriptSource.not_available ∧ r.quality_score = 0)

/-- Characterisation of a cache record the core itself wrote: the record
of a result with truthy text, whose source tag is one the core produces
for such results (never the unavailable tag). -/
def WFRecord (rec : CacheRecord) : Prop :=
  (∃ t, rec.text = some t ∧ t ≠ "") ∧ rec.source ≠ "not_available"

/-- A 499-word baseline transcript: the two characters of a short word
and a space, repeated 499 times. -/
def t499 : String :=
  String.mk (List.flatten (List.replicate 499 ['a', ' ']))

/-- Environment in which every collaborator fails: searches, fetches and
downloads raise, the hosted client construction raises, no file exists. -/
def envFail : Env :=
  ⟨fun _ => .error "net", fun _ => .error "net", fun _ _ => .error "net",
   fun _ _ _ => .error "net", .error "no api key", fun _ => none,
   fun _ _ _ => .error "net", fun _ => .ok (), fun _ _ _ => .error "net",
   fun _ => false, fun _ => .error "io", fun _ => .error "fail",
   fun _ => .ok (), fun _ => 1⟩

/-- Environment in which the download succeeds and the hosted speech API
returns the given text for a file of the given size. -/
def envHosted (apiText : String) (size : Nat) : Env :=
  ⟨fun _ => .ok "", fun _ => .ok none, fun _ _ => .error "net",
   fun _ _ _ => .ok (some "ep1.mp3"), .ok (), fun _ => some size,
   fun _ _ _ => .ok apiText, fun _ => .ok (), fun _ _ _ => .error "net",
   fun _ => false, fun _ => .error "io", fun _ => .error "fail",
   fun _ => .ok (), fun _ => 1⟩

/-- Environment in which the download succeeds but the hosted speech API
call raises. -/
def envHostedApiFail : Env :=
  ⟨fun _ => .ok "", fun _ => .ok none, fun _ _ => .error "net",
   fun _ _ _ => .ok (some "ep1.mp3"), .ok (), fun _ => some 1000,
   fun _ _ _ => .error "API connection error", fun _ => .ok (),
   fun _ _ _ => .error "net", fun _ => false, fun _ => .error "io",
   fun _ => .error "fail", fun _ => .ok (), fun _ => 1⟩

/-- Environment whose video search returns a single candidate whose
title matches nothing. -/
def envSearch : Env :=
  ⟨fun _ => .ok "", fun _ => .ok (some [some ⟨"jr123456789", "zzz"⟩]),
   fun _ _ => .error "net", fun _ _ _ => .error "net", .error "no api key",
   fun _ => none, fun _ _ _ => .error "net", fun _ => .ok (),
   fun _ _ _ => .error "net", fun _ => false, fun _ => .error "io",
   fun _ => .error "fail", fun _ => .ok (), fun _ => 1⟩

/-- The default configuration with caching turned off. -/
def cfgNoCache : TranscriptConfig :=
  ⟨true, true, false, false, "./transcript_cache", 500, "whisper-1", ["en"]⟩

/-- A transcript result with truthy text and every optional field
populated, used to exercise the cache round trip. -/
def r5 : TranscriptResult :=
  ⟨some "hello world", TranscriptSource.whisper_local, 1, some "en", none, some 2, []⟩

/-- A cache record with a manual-subtitles source, as the core writes
after a successful subtitle fetch. -/
def recManual : CacheRecord :=
  ⟨some "hi", "youtube_manual", 1, []⟩

/-- A one-entry cache state holding recManual. -/
def cacheY : CacheState :=
  [(cacheKey "p" "e", recManual)]

/-! ## Helper lemmas about the string primitives -/

theorem splitSepBy_ne_nil (p : Char → Bool) (l : List Char) : splitSepBy p l ≠ [] := by
  cases l with
  | nil => simp [splitSepBy]
  | cons c t =>
    simp only [splitSepBy]
    rcases h : splitSepBy p t with _ | ⟨h1, rt⟩ <;> cases hp : p c <;> simp [h, hp]

theorem splitSepBy_word (rest : List Char) :
    splitSepBy pyIsSpace ('w' :: 'o' :: 'r' :: 'd' :: ' ' :: rest) =
      ['w', 'o', 'r', 'd'] :: splitSepBy pyIsSpace rest := rfl

theorem splitSepBy_flatten_word (n : Nat) (rest : List Char) :
    splitSepBy pyIsSpace (List.flatten (List.replicate n ['w', 'o', 'r', 'd', ' ']) ++ rest) =
      List.replicate n ['w', 'o', 'r', 'd'] ++ splitSepBy pyIsSpace rest := by
  induction n with
  | zero => simp
  | succ n ih =>
    rw [List.replicate_succ, List.flatten_cons, List.append_assoc]
    show splitSepBy pyIsSpace ('w' :: 'o' :: 'r' :: 'd' :: ' ' :: _) = _
    rw [splitSepBy_word]
    simp only [List.append_eq, List.nil_append]
    rw [ih, List.replicate_succ, List.cons_append]

theorem splitSepBy_a (rest : List Char) :
    splitSepBy pyIsSpace ('a' :: ' ' :: rest) = ['a'] :: splitSepBy pyIsSpace rest := rfl

theorem splitSepBy_flatten_a (n : Nat) (rest : List Char) :
    splitSepBy pyIsSpace (List.flatten (List.replicate n ['a', ' ']) ++ rest) =
      List.replicate n ['a'] ++ splitSepBy pyIsSpace rest := by
  induction n with
  | zero => simp
  | succ n ih =>
    rw [List.replicate_succ, List.flatten_cons, List.append_assoc]
    show splitSepBy pyIsSpace ('a' :: ' ' :: _) = _
    rw [splitSepBy_a]
    simp only [List.append_eq, List.nil_append]
    rw [ih, List.replicate_succ, List.cons_append]

theorem mem_flatten_replicate {α : Type} {x : α} {n : Nat} {l : List α}
    (h : x ∈ List.flatten (List.replicate n l)) : x ∈ l := by
  rcases List.mem_flatten.1 h with ⟨s, hs, hxs⟩
  rwa [List.eq_of_mem_replicate hs] at hxs

theorem filter_ne_nil_replicate (n : Nat) (w : List Char) (hw : w ≠ []) :
    (List.replicate n w).filter (· ≠ []) = List.replicate n w := by
  induction n with
  | zero => rfl
  | succ n ih => simp [List.replicate_succ, ih, hw]

theorem leadsWith_append (p l m : List Char) (h : leadsWith p l = true) :
    leadsWith p (l ++ m) = true := by
  induction p generalizing l with
  | nil => rfl
  | cons ph pt ih =>
    cases l with
    | nil => simp [leadsWith] at h
    | cons c t =>
      simp only [leadsWith, Bool.and_eq_true] at h ⊢
      exact ⟨h.1, ih t h.2⟩

theorem hasSub_append_left (p l m : List Char) (h : hasSub p l = true) :
    hasSub p (l ++ m) = true := by
  induction l with
  | nil =>
    cases p with
    | nil => cases m <;> simp [hasSub, leadsWith]
    | cons ph pt => simp [hasSub, leadsWith] at h
  | cons c t ih =>
    simp only [hasSub, Bool.or_eq_true] at h
    rcases h with h | h
    · simp only [List.cons_append, hasSub, Bool.or_eq_true]
      exact Or.inl (leadsWith_append p (c :: t) m h)
    · simp only [List.cons_append, hasSub, Bool.or_eq_true]
      exact Or.inr (ih h)

theorem hasSub_append_right (p l m : List Char) (h : hasSub p m = true) :
    hasSub p (l ++ m) = true := by
  induction l with
  | nil => simpa using h
  | cons c t ih =>
    simp only [List.cons_append, hasSub, Bool.or_eq_true]
    exact Or.inr ih

theorem hasSub_cons_false (p1 : Char) (ps : List Char) (c : Char) (t : List Char)
    (hc : c ≠ p1) (ht : hasSub (p1 :: ps) t = false) :
    hasSub (p1 :: ps) (c :: t) = false := by
  simp only [hasSub, leadsWith, Bool.or_eq_false_iff, Bool.and_eq_false_iff]
  exact ⟨Or.inl (by simp [beq_eq_false_iff_ne, Ne.symm hc]), ht⟩

theorem hasSub_append_false (p1 : Char) (ps l m : List Char)
    (hl : ∀ c ∈ l, c ≠ p1) (hm : hasSub (p1 :: ps) m = false) :
    hasSub (p1 :: ps) (l ++ m) = false := by
  induction l with
  | nil => simpa using hm
  | cons c t ih =>
    have hc : c ≠ p1 := hl c (by simp)
    have ht : hasSub (p1 :: ps) (t ++ m) = false :=
      ih (fun x hx => hl x (by simp [hx]))
    simpa using hasSub_cons_false p1 ps c (t ++ m) hc ht

theorem hasSub_false_of_notin (p1 : Char) (ps l : List Char)
    (hl : ∀ c ∈ l, c ≠ p1) : hasSub (p1 :: ps) l = false := by
  have := hasSub_append_false p1 ps l [] hl (by simp [hasSub, leadsWith])
  simpa using this

theorem ellState_no_dot (l : List Char) (hl : ∀ c ∈ l, c ≠ '.') :
    ∀ k, ellState k l = 0 := by
  induction l with
  | nil => intro k; rfl
  | cons c t ih =>
    intro k
    have hc : c ≠ '.' := hl c (by simp)
    simp only [ellState, if_neg hc]
    exact ih (fun x hx => hl x (by simp [hx])) 0

theorem ellState_append_no_dot (l m : List Char) (hm : ∀ c ∈ m, c ≠ '.') :
    ∀ k, ellState k (l ++ m) = ellState k l := by
  induction l with
  | nil => intro k; simpa [ellState] using ellState_no_dot m hm k
  | cons c t ih =>
    intro k
    show ellState k (c :: (t ++ m)) = ellState k (c :: t)
    simp only [ellState]
    by_cases hc : c = '.'
    · by_cases hk : k = 2 <;> simp [hc, hk, ih]
    · simp [hc, ih]

theorem splitSepBy_no_sep (p : Char → Bool) (l : List Char)
    (hl : ∀ c ∈ l, p c = false) : splitSepBy p l = [l] := by
  induction l with
  | nil => rfl
  | cons c t ih =>
    have hc : p c = false := hl c (by simp)
    have ht : splitSepBy p t = [t] := ih (fun x hx => hl x (by simp [hx]))
    simp [splitSepBy, hc, ht]

/-! ## Evaluation of the quality scorer on the two large test strings -/

theorem w600_chars : ∀ c ∈ w600.data, c ∈ ['w', 'o', 'r', 'd', ' '] := by
  intro c hc
  exact mem_flatten_replicate hc

theorem w600_ne_empty : w600 ≠ "" := by
  intro h
  have hw : ('w' : Char) ∈ w600.data :=
    List.mem_flatten.2 ⟨['w', 'o', 'r', 'd', ' '], by simp [List.mem_replicate], by simp⟩
  rw [h] at hw
  simp [String.data] at hw

theorem wordCount_w600 : wordCount w600 = 600 := by
  have h := splitSepBy_flatten_word 600 []
  rw [List.append_nil] at h
  have h2 : splitSepBy pyIsSpace ([] : List Char) = [[]] := rfl
  rw [h2] at h
  show (pyWordsCL w600.data).length = 600
  rw [show w600.data = List.flatten (List.replicate 600 ['w', 'o', 'r', 'd', ' ']) from rfl]
  rw [pyWordsCL, h, List.filter_append,
      filter_ne_nil_replicate 600 ['w', 'o', 'r', 'd'] (by simp)]
  simp

theorem lower_w600_chars : ∀ c ∈ (lowerStr w600).data, c ≠ '[' := by
  intro c hc
  have : (lowerStr w600).data = w600.data.map Char.toLower := rfl
  rw [this] at hc
  rcases List.mem_map.1 hc with ⟨x, hx, rfl⟩
  have hx5 := w600_chars x hx
  have : ∀ y ∈ ['w', 'o', 'r', 'd', ' '], Char.toLower y ≠ '[' := by decide
  exact this x hx5

theorem inaud_w600 : inaudPenalty w600 = 0 := by
  rw [inaudPenalty, pyIn]
  rw [show ("[inaudible]" : String).data =
      '[' :: ['i', 'n', 'a', 'u', 'd', 'i', 'b', 'l', 'e', ']'] from rfl]
  rw [hasSub_false_of_notin '[' _ _ lower_w600_chars]
  rfl

theorem music_w600 : musicPenalty w600 = 0 := by
  rw [musicPenalty, pyIn]
  rw [show ("[music]" : String).data = '[' :: ['m', 'u', 's', 'i', 'c', ']'] from rfl]
  rw [hasSub_false_of_notin '[' _ _ lower_w600_chars]
  rfl

theorem ell_w600 : ellPenalty w600 = 0 := by
  rw [ellPenalty, countEll]
  have hall : ∀ y ∈ ['w', 'o', 'r', 'd', ' '], y ≠ '.' := by decide
  rw [ellState_no_dot w600.data (fun c hc => hall c (w600_chars c hc)) 0]
  rfl

theorem struct_w600 : structPenalty w600 = 10 := by
  rw [structPenalty]
  have hsp : splitSepBy (fun c => c = '.') w600.data = [w600.data] := by
    apply splitSepBy_no_sep
    intro c hc
    have hall : ∀ y ∈ ['w', 'o', 'r', 'd', ' '], decide (y = '.') = false := by decide
    exact hall c (w600_chars c hc)
  simp only [hsp, List.length_cons, List.length_nil, List.map_cons, List.map_nil,
             List.sum_cons, List.sum_nil]
  have : (pyWordsCL w600.data).length = 600 := wordCount_w600
  rw [this]
  norm_num

theorem score100_w600 : score100 w600 = 80 := by
  rw [score100, if_neg w600_ne_empty, wordCount_w600, inaud_w600, music_w600,
      ell_w600, struct_w600]
  rfl

theorem cqs_w600 : calculate_quality_score w600 = 4 / 5 := by
  rw [calculate_quality_score, score100_w600]
  norm_num

theorem t499_chars : ∀ c ∈ t499.data, c ∈ ['a', ' '] := by
  intro c hc
  exact mem_flatten_replicate hc

theorem t499_ne_empty : t499 ≠ "" := by
  intro h
  have hw : ('a' : Char) ∈ t499.data :=
    List.mem_flatten.2 ⟨['a', ' '], by simp [List.mem_replicate], by simp⟩
  rw [h] at hw
  simp [String.data] at hw

theorem words_t499 : pyWordsCL t499.data = List.replicate 499 ['a'] := by
  have h := splitSepBy_flatten_a 499 []
  rw [List.append_nil] at h
  have h2 : splitSepBy pyIsSpace ([] : List Char) = [[]] := rfl
  rw [h2] at h
  rw [show t499.data = List.flatten (List.replicate 499 ['a', ' ']) from rfl]
  rw [pyWordsCL, h, List.filter_append, filter_ne_nil_replicate 499 ['a'] (by simp)]
  simp

theorem wordCount_t499 : wordCount t499 = 499 := by
  rw [wordCount, words_t499]
  simp

theorem t499M_data :
    (t499 ++ "[inaudible] ").data = t499.data ++ ("[inaudible] " : String).data := rfl

theorem words_t499M :
    pyWordsCL (t499 ++ "[inaudible] ").data =
      List.replicate 499 ['a'] ++ [("[inaudible]" : String).data] := by
  rw [t499M_data]
  rw [show t499.data = List.flatten (List.replicate 499 ['a', ' ']) from rfl]
  rw [pyWordsCL, splitSepBy_flatten_a 499 _]
  rw [show splitSepBy pyIsSpace ("[inaudible] " : String).data =
      [("[inaudible]" : String).data, []] from rfl]
  rw [List.filter_append, filter_ne_nil_replicate 499 ['a'] (by simp)]
  rfl

theorem wordCount_t499M : wordCount (t499 ++ "[inaudible] ") = 500 := by
  rw [wordCount, words_t499M]
  simp

theorem lower_t499_chars : ∀ c ∈ (lowerStr t499).data, c ≠ '[' := by
  intro c hc
  have : (lowerStr t499).data = t499.data.map Char.toLower := rfl
  rw [this] at hc
  rcases List.mem_map.1 hc with ⟨x, hx, rfl⟩
  have hall : ∀ y ∈ ['a', ' '], Char.toLower y ≠ '[' := by decide
  exact hall x (t499_chars x hx)

theorem inaud_t499 : inaudPenalty t499 = 0 := by
  rw [inaudPenalty, pyIn]
  rw [show ("[inaudible]" : String).data =
      '[' :: ['i', 'n', 'a', 'u', 'd', 'i', 'b', 'l', 'e', ']'] from rfl]
  rw [hasSub_false_of_notin '[' _ _ lower_t499_chars]
  rfl

theorem music_t499 : musicPenalty t499 = 0 := by
  rw [musicPenalty, pyIn]
  rw [show ("[music]" : String).data = '[' :: ['m', 'u', 's', 'i', 'c', ']'] from rfl]
  rw [hasSub_false_of_notin '[' _ _ lower_t499_chars]
  rfl

theorem lower_t499M_data :
    (lowerStr (t499 ++ "[inaudible] ")).data =
      t499.data.map Char.toLower ++ ("[inaudible] " : String).data.map Char.toLower := by
  show ((t499 ++ "[inaudible] ").data.map Char.toLower) = _
  rw [t499M_data, List.map_append]

theorem inaud_t499M : inaudPenalty (t499 ++ "[inaudible] ") = 10 := by
  rw [inaudPenalty, pyIn, lower_t499M_data]
  rw [hasSub_append_right _ _ _ (by decide)]
  rfl

theorem music_t499M : musicPenalty (t499 ++ "[inaudible] ") = 0 := by
  rw [musicPenalty, pyIn, lower_t499M_data]
  rw [show ("[music]" : String).data = '[' :: ['m', 'u', 's', 'i', 'c', ']'] from rfl]
  rw [hasSub_append_false '[' _ _ _
    (fun c hc => by
      rcases List.mem_map.1 hc with ⟨x, hx, rfl⟩
      have hall : ∀ y ∈ ['a', ' '], Char.toLower y ≠ '[' := by decide
      exact hall x (t499_chars x hx))
    (by decide)]
  rfl

theorem no_dot_t499M : ∀ c ∈ (t499 ++ "[inaudible] ").data, c ≠ '.' := by
  intro c hc
  rw [t499M_data] at hc
  rcases List.mem_append.1 hc with h | h
  · have hall : ∀ y ∈ ['a', ' '], y ≠ '.' := by decide
    exact hall c (t499_chars c h)
  · have hall : ∀ y ∈ ("[inaudible] " : String).data, y ≠ '.' := by decide
    exact hall c h

theorem no_dot_t499 : ∀ c ∈ t499.data, c ≠ '.' := by
  intro c hc
  have hall : ∀ y ∈ ['a', ' '], y ≠ '.' := by decide
  exact hall c (t499_chars c hc)

theorem ell_t499 : ellPenalty t499 = 0 := by
  rw [ellPenalty, countEll, ellState_no_dot t499.data no_dot_t499 0]
  rfl

theorem ell_t499M : ellPenalty (t499 ++ "[inaudible] ") = 0 := by
  rw [ellPenalty, countEll, ellState_no_dot _ no_dot_t499M 0]
  rfl

theorem struct_t499 : structPenalty t499 = 10 := by
  rw [structPenalty]
  have hsp : splitSepBy (fun c => c = '.') t499.data = [t499.data] := by
    apply splitSepBy_no_sep
    intro c hc
    simpa using no_dot_t499 c hc
  simp only [hsp, List.length_cons, List.length_nil, List.map_cons, List.map_nil,
             List.sum_cons, List.sum_nil]
  rw [words_t499]
  simp

theorem struct_t499M : structPenalty (t499 ++ "[inaudible] ") = 10 := by
  rw [structPenalty]
  have hsp : splitSepBy (fun c => c = '.') (t499 ++ "[inaudible] ").data =
      [(t499 ++ "[inaudible] ").data] := by
    apply splitSepBy_no_sep
    intro c hc
    simpa using no_dot_t499M c hc
  simp only [hsp, List.length_cons, List.length_nil, List.map_cons, List.map_nil,
             List.sum_cons, List.sum_nil]
  rw [words_t499M]
  simp

theorem t499M_ne_empty : t499 ++ "[inaudible] " ≠ "" := by
  intro h
  have hw : ('a' : Char) ∈ (t499 ++ "[inaudible] ").data := by
    rw [t499M_data]
    exact List.mem_append.2 (Or.inl
      (List.mem_flatten.2 ⟨['a', ' '], by simp [List.mem_replicate], by simp⟩))
  rw [h] at hw
  simp [String.data] at hw

theorem score100_t499 : score100 t499 = 60 := by
  rw [score100, if_neg t499_ne_empty, wordCount_t499, inaud_t499, music_t499,
      ell_t499, struct_t499]
  rfl

theorem score100_t499M : score100 (t499 ++ "[inaudible] ") = 70 := by
  rw [score100, if_neg t499M_ne_empty, wordCount_t499M, inaud_t499M, music_t499M,
      ell_t499M, struct_t499M]
  rfl

/-! ## Claim C7: score monotonicity under appended noise markers -/

theorem string_ne_empty_data {s : String} (h : s ≠ "") : s.data ≠ [] := by
  intro hd
  exact h (String.ext hd)

theorem append_ne_empty_left {s : String} (m : String) (h : s ≠ "") : s ++ m ≠ "" := by
  intro hm
  have hd : (s ++ m).data = [] := by rw [hm]
  rw [String.data_append] at hd
  exact string_ne_empty_data h (List.append_eq_nil.1 hd).1

theorem ellPenalty_append (T m : String) (hdot : ∀ c ∈ m.data, c ≠ '.') :
    ellPenalty (T ++ m) = ellPenalty T := by
  rw [ellPenalty, ellPenalty, countEll, countEll, String.data_append,
      ellState_append_no_dot T.data m.data hdot 0]

theorem lower_data_append (T m : String) :
    (lowerStr (T ++ m)).data = (lowerStr T).data ++ (lowerStr m).data := by
  show (T ++ m).data.map Char.toLower = T.data.map Char.toLower ++ m.data.map Char.toLower
  rw [String.data_append, List.map_append]

theorem inaudPenalty_le_append (T m : String) :
    inaudPenalty T ≤ inaudPenalty (T ++ m) := by
  cases hp : pyIn "[inaudible]" (lowerStr T) with
  | false => simp [inaudPenalty, hp]
  | true =>
    have h2 : pyIn "[inaudible]" (lowerStr (T ++ m)) = true := by
      rw [pyIn] at hp ⊢
      rw [lower_data_append]
      exact hasSub_append_left _ _ _ hp
    simp [inaudPenalty, hp, h2]

theorem musicPenalty_le_append (T m : String) :
    musicPenalty T ≤ musicPenalty (T ++ m) := by
  cases hp : pyIn "[music]" (lowerStr T) with
  | false => simp [musicPenalty, hp]
  | true =>
    have h2 : pyIn "[music]" (lowerStr (T ++ m)) = true := by
      rw [pyIn] at hp ⊢
      rw [lower_data_append]
      exact hasSub_append_left _ _ _ hp
    simp [musicPenalty, hp, h2]

theorem score100_append_le (T m : String) (h0 : T ≠ "")
    (hb : bandPenalty (wordCount (T ++ m)) = bandPenalty (wordCount T))
    (hs : structPenalty (T ++ m) = structPenalty T)
    (hdot : ∀ c ∈ m.data, c ≠ '.') :
    score100 (T ++ m) ≤ score100 T := by
  rw [score100, score100, if_neg (append_ne_empty_left m h0), if_neg h0]
  apply Nat.sub_le_sub_left
  have he := ellPenalty_append T m hdot
  have hi := inaudPenalty_le_append T m
  have hmu := musicPenalty_le_append T m
  omega

theorem cqs_le_of_score100_le {a b : String} (h : score100 a ≤ score100 b) :
    calculate_quality_score a ≤ calculate_quality_score b := by
  rw [calculate_quality_score, calculate_quality_score]
  have hq : (score100 a : ℚ) ≤ (score100 b : ℚ) := by exact_mod_cast h
  exact (div_le_div_iff_of_pos_right (by norm_num)).2 hq

/-- Claim C7 counterexample: for the 499-word baseline, appending the
inaudible marker moves the word count into the [500, 1000) band, so the
length penalty drops from 0.3 to 0.1 while the marker only adds 0.1, and
the score strictly increases from 0.6 to 0.7. -/
theorem spec_C7_counterexample :
    ¬ (calculate_quality_score (t499 ++ "[inaudible] ") ≤ calculate_quality_score t499) := by
  rw [calculate_quality_score, calculate_quality_score, score100_t499, score100_t499M]
  norm_num

/-- Claim C7 amended: appending an [inaudible] or [music] marker never
increases the quality score, provided the appended marker leaves the
word-count penalty band and the sentence-structure penalty unchanged
(the counterexample shows the restriction is necessary: crossing the
500-word boundary raises the score) and the baseline is non-empty (the
scorer maps the empty string to 0.0 directly, below every penalised
score). -/
theorem spec_C7_amended (T : String) (h0 : T ≠ "")
    (hb1 : bandPenalty (wordCount (T ++ "[inaudible] ")) = bandPenalty (wordCount T))
    (hs1 : structPenalty (T ++ "[inaudible] ") = structPenalty T)
    (hb2 : bandPenalty (wordCount (T ++ "[music] ")) = bandPenalty (wordCount T))
    (hs2 : structPenalty (T ++ "[music] ") = structPenalty T) :
    calculate_quality_score (T ++ "[inaudible] ") ≤ calculate_quality_score T ∧
    calculate_quality_score (T ++ "[music] ") ≤ calculate_quality_score T := by
  constructor
  · exact cqs_le_of_score100_le (score100_append_le T "[inaudible] " h0 hb1 hs1 (by decide))
  · exact cqs_le_of_score100_le (score100_append_le T "[music] " h0 hb2 hs2 (by decide))

/-- Witness for the amended claim C7 at a concrete baseline. -/
theorem spec_C7_amended_witness :
    calculate_quality_score ("hello there. good words here." ++ "[inaudible] ") ≤
        calculate_quality_score "hello there. good words here." ∧
    calculate_quality_score ("hello there. good words here." ++ "[music] ") ≤
        calculate_quality_score "hello there. good words here." := by
  have h := spec_C7_amended "hello there. good words here." (by decide)
    (by decide) (by decide) (by decide) (by decide)
  exact h

/-! ## Helper lemmas about the orchestrator stages -/

theorem try_youtube_none (env : Env) (cfg : TranscriptConfig) (rssUrl episode : String) :
    try_youtube_caught env cfg rssUrl episode = none := by
  rw [try_youtube_caught, try_youtube_body]
  rcases h : check_youtube_availability env rssUrl episode with ⟨b, u⟩
  cases b <;> cases u <;> simp [config_youtube_languages]

theorem inv_unavailableErr (e : String) : ResultInv (unavailableErr e) := by
  simp [ResultInv, unavailableErr, mkResult]

theorem inv_mkResult_some (t : String) (src : TranscriptSource) (qs : ℚ)
    (md : List (String × MetaVal)) (hsrc : src ≠ TranscriptSource.not_available) :
    ResultInv (mkResult (some t) src qs md) := by
  simp [ResultInv, mkResult, hsrc]

theorem inv_try_whisper (env : Env) (cfg : TranscriptConfig) (a e p : String) :
    ResultInv (try_whisper_caught env cfg a e p) := by
  rw [try_whisper_caught]
  rcases hb : try_whisper_body env cfg a e p with er | r
  · exact inv_unavailableErr er
  · rw [try_whisper_body] at hb
    repeat' split at hb
    all_goals first
      | exact Except.noConfusion hb
      | (cases hb; exact inv_mkResult_some _ _ _ _ (by decide))

theorem try_whisper_source (env : Env) (cfg : TranscriptConfig) (a e p : String) :
    (try_whisper_caught env cfg a e p).source = TranscriptSource.whisper_local ∨
    (try_whisper_caught env cfg a e p).source = TranscriptSource.whisper_remote ∨
    (try_whisper_caught env cfg a e p).source = TranscriptSource.not_available := by
  rw [try_whisper_caught]
  rcases hb : try_whisper_body env cfg a e p with er | r
  · right; right; rfl
  · rw [try_whisper_body] at hb
    repeat' split at hb
    all_goals try exact Except.noConfusion hb
    all_goals (cases hb; simp [mkResult])

theorem try_whisper_download_error (env : Env) (cfg : TranscriptConfig)
    (a e p m : String) (h : env.download a e p = .error m) :
    try_whisper_caught env cfg a e p = unavailableErr m := by
  rw [try_whisper_caught, try_whisper_body, h]

theorem sourceOfString_eq_na {x : String}
    (h : sourceOfString x = some TranscriptSource.not_available) : x = "not_available" := by
  rw [sourceOfString] at h
  split_ifs at h <;> simp_all

theorem inv_decode (rec : CacheRecord) (r : TranscriptResult) (hWF : WFRecord rec)
    (h : decodeRecord rec = some r) : ResultInv r := by
  rw [decodeRecord] at h
  rcases hs : sourceOfString rec.source with _ | s
  · rw [hs] at h
    exact Option.noConfusion h
  · rw [hs] at h
    change (if 0 ≤ rec.quality_score ∧ rec.quality_score ≤ 1 then
        some (mkResult rec.text s rec.quality_score rec.metadata) else none) = some r at h
    split at h
    · cases h
      rcases hWF with ⟨⟨t, ht, _⟩, hna⟩
      have hsrc : s ≠ TranscriptSource.not_available := by
        intro hEq
        rw [hEq] at hs
        exact hna (sourceOfString_eq_na hs)
      rw [ht]
      exact inv_mkResult_some t s rec.quality_score rec.metadata hsrc
    · exact Option.noConfusion h

theorem inv_check_cache (cfg : TranscriptConfig) (cache : CacheState) (p e : String)
    (r : TranscriptResult) (hWF : ∀ k rec, cacheFind cache k = some rec → WFRecord rec)
    (h : check_cache_pure cfg cache p e = some r) : ResultInv r := by
  rw [check_cache_pure] at h
  split at h
  · rcases Option.bind_eq_some.1 h with ⟨rec, hrec, hdec⟩
    exact inv_decode rec r (hWF (cacheKey p e) rec hrec) hdec
  · exact Option.noConfusion h

theorem get_transcript_shape (env : Env) (cfg : TranscriptConfig) (cache : CacheState)
    (p e : String) (au ru : Option String) :
    (∃ r, check_cache_pure cfg cache p e = some r ∧
      get_transcript env cfg cache p e au ru = .ok (r, cache)) ∨
    (check_cache_pure cfg cache p e = none ∧
     ∃ r1, ((r1 = noAudioResult ∧
             (au = none ∨ ∃ a, au = some a ∧ a.data.isEmpty = true)) ∨
            ∃ a, au = some a ∧ a.data.isEmpty = false ∧
              r1 = try_whisper_caught env cfg a e p) ∧
       get_transcript env cfg cache p e au ru =
         .ok (r1, if truthyText r1.text && cfg.cache_transcripts then
                    cache_transcript_caught env cfg cache p e r1 else cache)) := by
  cases hc : cfg.cache_transcripts with
  | false =>
    right
    have h0 : check_cache_pure cfg cache p e = none := by simp [check_cache_pure, hc]
    refine ⟨h0, ?_⟩
    rcases au with _ | a
    · refine ⟨noAudioResult, Or.inl ⟨rfl, Or.inl rfl⟩, ?_⟩
      rcases ru with _ | u <;>
        simp [get_transcript, hc, whisper_fallback, try_youtube_m, try_youtube_none,
              cache_transcript_m, noAudioResult, mkResult, truthyText]
    · cases hae : a.data.isEmpty with
      | true =>
        refine ⟨noAudioResult, Or.inl ⟨rfl, Or.inr ⟨a, rfl, hae⟩⟩, ?_⟩
        rcases ru with _ | u <;>
          simp [get_transcript, hc, whisper_fallback, try_youtube_m, try_youtube_none,
                hae, cache_transcript_m, noAudioResult, mkResult, truthyText]
      | false =>
        refine ⟨try_whisper_caught env cfg a e p, Or.inr ⟨a, rfl, hae, rfl⟩, ?_⟩
        rcases ru with _ | u <;>
          simp [get_transcript, hc, whisper_fallback, try_youtube_m, try_youtube_none,
                hae, try_whisper_m, cache_transcript_m]
  | true =>
    rcases hx : check_cache_pure cfg cache p e with _ | r
    · right
      refine ⟨rfl, ?_⟩
      rcases au with _ | a
      · refine ⟨noAudioResult, Or.inl ⟨rfl, Or.inl rfl⟩, ?_⟩
        rcases ru with _ | u <;>
          simp [get_transcript, hc, hx, check_cache_m, whisper_fallback,
                try_youtube_m, try_youtube_none, cache_transcript_m, noAudioResult,
                mkResult, truthyText]
      · cases hae : a.data.isEmpty with
        | true =>
          refine ⟨noAudioResult, Or.inl ⟨rfl, Or.inr ⟨a, rfl, hae⟩⟩, ?_⟩
          rcases ru with _ | u <;>
            simp [get_transcript, hc, hx, check_cache_m, whisper_fallback,
                  try_youtube_m, try_youtube_none, hae, cache_transcript_m,
                  noAudioResult, mkResult, truthyText]
        | false =>
          refine ⟨try_whisper_caught env cfg a e p, Or.inr ⟨a, rfl, hae, rfl⟩, ?_⟩
          cases ht : truthyText (try_whisper_caught env cfg a e p).text with
          | false =>
            rcases ru with _ | u <;>
              simp [get_transcript, hc, hx, check_cache_m, whisper_fallback,
                    try_youtube_m, try_youtube_none, hae, try_whisper_m, ht,
                    cache_transcript_m]
          | true =>
            rcases ru with _ | u <;>
              simp [get_transcript, hc, hx, check_cache_m, whisper_fallback,
                    try_youtube_m, try_youtube_none, hae, try_whisper_m, ht,
                    cache_transcript_m]
    · left
      refine ⟨r, rfl, ?_⟩
      simp [get_transcript, hc, hx, check_cache_m]

theorem inv_mkResult_none (md : List (String × MetaVal)) :
    ResultInv (mkResult none TranscriptSource.not_available 0 md) := by
  simp [ResultInv, mkResult]

theorem inv_noSubs (vid : String) : ResultInv (noSubsResult vid) := by
  rw [noSubsResult]
  exact inv_mkResult_none _

theorem inv_subtitleResult (vid url : String) (res : YtFetchRes)
    (src : TranscriptSource) (qs : ℚ) (content : String)
    (hsrc : src ≠ TranscriptSource.not_available) :
    ResultInv (subtitleResult vid url res src qs content) := by
  rw [subtitleResult]
  rcases parse_vtt content with _ | text
  · exact inv_noSubs vid
  · cases hE : text.data.isEmpty with
    | true => simp only [hE, if_true]; exact inv_noSubs vid
    | false => simp only [hE, if_false]; exact inv_mkResult_some _ _ _ _ hsrc

theorem inv_fetch_youtube (env : Env) (url : String) (languages : List String) :
    ResultInv (fetch_youtube_transcript env url languages) := by
  rw [fetch_youtube_transcript]
  split
  next => exact inv_mkResult_none _
  next vid hv =>
    split
    next er he => exact inv_unavailableErr er
    next res hres =>
      split
      next content hcon =>
        exact inv_subtitleResult vid url res TranscriptSource.youtube_manual 1 content
          (by decide)
      next hcon =>
        split
        next content hcon2 =>
          exact inv_subtitleResult vid url res TranscriptSource.youtube_auto (8 / 10) content
            (by decide)
        next hcon2 => exact inv_noSubs vid

/-! ## Claim C1: the orchestrator always returns a TranscriptResult value -/

/-- Claim C1: for every configuration, cache state and collaborator
behaviour, get_transcript terminates with an ok TranscriptResult (no
exception escapes, because every stage method catches its own); and when
the audio download stage raises with message m on a cache miss, the
returned result is unavailable with that exception message in metadata
and the cache is untouched. -/
theorem spec_C1 (env : Env) (cfg : TranscriptConfig) (cache : CacheState)
    (p e : String) (au ru : Option String) (a m : String) :
    (∃ rc, get_transcript env cfg cache p e au ru = .ok rc) ∧
    (check_cache_pure cfg cache p e = none → au = some a → a.data.isEmpty = false →
      env.download a e p = .error m →
      get_transcript env cfg cache p e au ru = .ok (unavailableErr m, cache)) := by
  constructor
  · rcases get_transcript_shape env cfg cache p e au ru with ⟨r, _, hg⟩ | ⟨_, r1, _, hg⟩
    · exact ⟨_, hg⟩
    · exact ⟨_, hg⟩
  · intro h0 hau hae hdl
    rcases get_transcript_shape env cfg cache p e au ru with
      ⟨r, hr, _⟩ | ⟨hnone, r1, hcase, hg⟩
    · rw [h0] at hr
      exact Option.noConfusion hr
    · rcases hcase with ⟨h1, hau2⟩ | ⟨a2, hau2, hae2, h1⟩
      · rcases hau2 with h2 | ⟨a2, h2, hae2⟩
        · rw [hau] at h2
          exact Option.noConfusion h2
        · rw [hau] at h2
          have ha : a = a2 := Option.some.inj h2
          rw [← ha] at hae2
          rw [hae] at hae2
          exact Bool.noConfusion hae2
      · rw [hau] at hau2
        have ha : a2 = a := (Option.some.inj hau2).symm
        subst ha
        rw [try_whisper_download_error env cfg a2 e p m hdl] at h1
        subst h1
        rw [hg]
        rfl

/-- Witness for claim C1: a concrete environment whose downloader raises. -/
theorem spec_C1_witness :
    (∃ rc, get_transcript envFail defaultConfig [] "p" "e" (some "u") none = .ok rc) ∧
    get_transcript envFail defaultConfig [] "p" "e" (some "u") none =
      .ok (unavailableErr "net", []) := by
  have h := spec_C1 envFail defaultConfig [] "p" "e" (some "u") none "u" "net"
  exact ⟨h.1, h.2 rfl rfl rfl rfl⟩

/-! ## Claim C2: the text/source/quality invariant -/

/-- Claim C2: every TranscriptResult the core produces satisfies the
invariant (text is None exactly when the source is unavailable and the
quality score is 0.0): the results returned by get_transcript over a
cache whose records the core itself wrote, the results of
fetch_youtube_transcript, and every result reconstructed from a
core-written cache record. -/
theorem spec_C2 :
    (∀ env cfg cache p e au ru r c2,
       (∀ k rec, cacheFind cache k = some rec → WFRecord rec) →
       get_transcript env cfg cache p e au ru = .ok (r, c2) → ResultInv r) ∧
    (∀ env url languages, ResultInv (fetch_youtube_transcript env url languages)) ∧
    (∀ rec r, WFRecord rec → decodeRecord rec = some r → ResultInv r) := by
  refine ⟨?_, inv_fetch_youtube, inv_decode⟩
  intro env cfg cache p e au ru r c2 hWF hok
  rcases get_transcript_shape env cfg cache p e au ru with
    ⟨r1, hr1, hg⟩ | ⟨hnone, r1, hcase, hg⟩
  · rw [hok] at hg
    have hr : r = r1 := congrArg Prod.fst (Except.ok.inj hg)
    rw [hr]
    exact inv_check_cache cfg cache p e r1 hWF hr1
  · rw [hok] at hg
    have hr : r = r1 := congrArg Prod.fst (Except.ok.inj hg)
    rw [hr]
    rcases hcase with ⟨h1, _⟩ | ⟨a2, _, _, h1⟩
    · rw [h1, noAudioResult]
      exact inv_mkResult_none _
    · rw [h1]
      exact inv_try_whisper env cfg a2 e p

/-- Witness for claim C2 at concrete inputs for each of its parts. -/
theorem spec_C2_witness :
    ResultInv noAudioResult ∧
    ResultInv (fetch_youtube_transcript envFail "u" ["en"]) ∧
    ResultInv (mkResult (some "hi") TranscriptSource.youtube_manual 1 []) := by
  refine ⟨?_, spec_C2.2.1 envFail "u" ["en"], ?_⟩
  · exact spec_C2.1 envFail defaultConfig [] "p" "e" none none noAudioResult []
      (fun k rec h => Option.noConfusion h) rfl
  · exact spec_C2.2.2 recManual (mkResult (some "hi") TranscriptSource.youtube_manual 1 [])
      ⟨⟨"hi", rfl, by decide⟩, by decide⟩ rfl

/-! ## Claim C6: failures are never cached -/

/-- Claim C6: _cache_transcript with a falsy text (None or empty) leaves
the cache untouched, so a lookup that missed before the put still misses
after it; and get_transcript leaves the cache untouched whenever the
result it returns has no truthy text (it writes only on its success
leaves). -/
theorem spec_C6 (env : Env) (cfg : TranscriptConfig) (cache : CacheState)
    (p e : String) (r : TranscriptResult)
    (env2 : Env) (cfg2 : TranscriptConfig) (cache2 : CacheState) (p2 e2 : String)
    (au ru : Option String) (r2 : TranscriptResult) (c2 : CacheState) :
    (truthyText r.text = false → cache_transcript_caught env cfg cache p e r = cache) ∧
    (truthyText r.text = false → check_cache_pure cfg cache p e = none →
       check_cache_pure cfg (cache_transcript_caught env cfg cache p e r) p e = none) ∧
    (get_transcript env2 cfg2 cache2 p2 e2 au ru = .ok (r2, c2) →
       truthyText r2.text = false → c2 = cache2) := by
  have hput : truthyText r.text = false →
      cache_transcript_caught env cfg cache p e r = cache := by
    intro h
    rw [cache_transcript_caught]
    simp [h]
  refine ⟨hput, ?_, ?_⟩
  · intro h h0
    rw [hput h]
    exact h0
  · intro hok hfalse
    rcases get_transcript_shape env2 cfg2 cache2 p2 e2 au ru with
      ⟨r1, hr1, hg⟩ | ⟨hnone, r1, hcase, hg⟩
    · rw [hok] at hg
      have hc : c2 = cache2 := congrArg Prod.snd (Except.ok.inj hg)
      exact hc
    · rw [hok] at hg
      have hpair := Except.ok.inj hg
      have hr : r2 = r1 := congrArg Prod.fst hpair
      have hc : c2 = (if truthyText r1.text && cfg2.cache_transcripts then
          cache_transcript_caught env2 cfg2 cache2 p2 e2 r1 else cache2) :=
        congrArg Prod.snd hpair
      rw [← hr] at hc
      rw [hfalse] at hc
      simpa using hc

/-- Witness for claim C6 at a concrete unavailable result. -/
theorem spec_C6_witness :
    (truthyText noAudioResult.text = false →
      cache_transcript_caught envFail defaultConfig [] "p" "e" noAudioResult = []) ∧
    (truthyText noAudioResult.text = false →
      check_cache_pure defaultConfig [] "p" "e" = none →
      check_cache_pure defaultConfig
        (cache_transcript_caught envFail defaultConfig [] "p" "e" noAudioResult)
        "p" "e" = none) ∧
    (get_transcript envFail defaultConfig [] "p" "e" none none =
        .ok (noAudioResult, []) → truthyText noAudioResult.text = false →
      ([] : CacheState) = []) := by
  exact spec_C6 envFail defaultConfig [] "p" "e" noAudioResult
    envFail defaultConfig [] "p" "e" none none noAudioResult []

/-! ## Claim C10: the YouTube stage always returns None -/

/-- Claim C10: _try_youtube_transcript always returns None, because when
a video is located the stage reads the nonexistent configuration
attribute youtube_languages, and the AttributeError is converted to None
by its handler; consequently a result of get_transcript whose source is
a YouTube tag can only be the value of a pre-existing cache entry. -/
theorem spec_C10 (env : Env) (cfg : TranscriptConfig) (rssUrl episode : String)
    (env2 : Env) (cfg2 : TranscriptConfig) (cache : CacheState) (p e : String)
    (au ru : Option String) (r : TranscriptResult) (c2 : CacheState) :
    try_youtube_caught env cfg rssUrl episode = none ∧
    (get_transcript env2 cfg2 cache p e au ru = .ok (r, c2) →
     (r.source = TranscriptSource.youtube_manual ∨
      r.source = TranscriptSource.youtube_auto) →
     check_cache_pure cfg2 cache p e = some r) := by
  refine ⟨try_youtube_none env cfg rssUrl episode, ?_⟩
  intro hok hsrc
  rcases get_transcript_shape env2 cfg2 cache p e au ru with
    ⟨r1, hr1, hg⟩ | ⟨hnone, r1, hcase, hg⟩
  · rw [hok] at hg
    have hr : r = r1 := congrArg Prod.fst (Except.ok.inj hg)
    rw [hr]
    exact hr1
  · rw [hok] at hg
    have hr : r = r1 := congrArg Prod.fst (Except.ok.inj hg)
    exfalso
    rcases hcase with ⟨h1, _⟩ | ⟨a2, _, _, h1⟩
    · rw [hr, h1] at hsrc
      rcases hsrc with h | h <;> simp [noAudioResult, mkResult] at h
    · rw [hr, h1] at hsrc
      rcases try_whisper_source env2 cfg2 a2 e p with h | h | h <;>
        rw [h] at hsrc <;> rcases hsrc with h2 | h2 <;> exact TranscriptSource.noConfusion h2

/-- Witness for claim C10: a cache pre-loaded with a manual-subtitles
record is the only way get_transcript yields a YouTube-tagged result. -/
theorem spec_C10_witness :
    try_youtube_caught envFail defaultConfig "r" "e" = none ∧
    check_cache_pure defaultConfig cacheY "p" "e" =
      some (mkResult (some "hi") TranscriptSource.youtube_manual 1 []) := by
  have h := spec_C10 envFail defaultConfig "r" "e" envFail defaultConfig cacheY "p" "e"
    none none (mkResult (some "hi") TranscriptSource.youtube_manual 1 []) cacheY
  exact ⟨h.1, h.2 rfl (Or.inl rfl)⟩

/-! ## Claim C3: the source tag of a hosted-API transcription -/

/-- Claim C3 evaluation: with the hosted speech API backend active and
succeeding, the result returned by get_transcript carries the
whisper_local source tag, not whisper_openai: lines 253-255 of
transcript_fetcher.py assign WHISPER_LOCAL in the hosted-API case (with
a comment to consider adding WHISPER_OPENAI), so the documented hosted
tag of the enumeration is never produced. -/
theorem spec_C3_code_eval :
    cfgNoCache.use_openai_whisper = true ∧
    (get_transcript (envHosted "hello world from the show" 1000) cfgNoCache []
        "Acme Cast" "Episode 1" (some "http://a.mp3") none).toOption.map
      (fun rc => rc.1.source) = some TranscriptSource.whisper_local ∧
    TranscriptSource.whisper_local ≠ TranscriptSource.whisper_openai := by
  refine ⟨rfl, rfl, by decide⟩

/-! ## Claim C4: the end-to-end quality score of the 600-word transcript -/

/-- Claim C4 counterexample: in the end-to-end hosted-API scenario that
returns the 600-word string, the quality score of the result is 0.8, not
1.0: the scorer subtracts 0.1 for a word count in [500, 1000) and 0.1
for the sentence-structure check (the text has no dots, so its single
sentence averages 600 words, above 30). -/
theorem spec_C4_counterexample :
    (get_transcript (envHosted w600 1000) cfgNoCache [] "Acme Cast" "Episode 1"
        (some "http://a.mp3") none).toOption.map (fun rc => rc.1.quality_score) =
      some (4 / 5) ∧ (4 / 5 : ℚ) ≠ 1 := by
  constructor
  · have h : (get_transcript (envHosted w600 1000) cfgNoCache [] "Acme Cast" "Episode 1"
        (some "http://a.mp3") none).toOption.map (fun rc => rc.1.quality_score) =
        some (calculate_quality_score w600) := rfl
    rw [h, cqs_w600]
  · norm_num

/-- Claim C4 amended: the returned quality score in that scenario equals
0.8 exactly. -/
theorem spec_C4_amended :
    (get_transcript (envHosted w600 1000) cfgNoCache [] "Acme Cast" "Episode 1"
        (some "http://a.mp3") none).toOption.map (fun rc => rc.1.quality_score) =
      some (4 / 5) := by
  have h : (get_transcript (envHosted w600 1000) cfgNoCache [] "Acme Cast" "Episode 1"
      (some "http://a.mp3") none).toOption.map (fun rc => rc.1.quality_score) =
      some (calculate_quality_score w600) := rfl
  rw [h, cqs_w600]

/-! ## Claim C5: the cache round trip -/

theorem cacheFind_cons_ne (x : CacheKey × CacheRecord) (ys : CacheState) (k : CacheKey)
    (hx : x.1 ≠ k) : cacheFind (x :: ys) k = cacheFind ys k := by
  have hpred : (x.1.1 == k.1 && x.1.2 == k.2) = false := by
    cases hb1 : x.1.1 == k.1 with
    | false => rfl
    | true =>
      cases hb2 : x.1.2 == k.2 with
      | false => rfl
      | true =>
        exfalso
        exact hx (Prod.ext_iff.2 ⟨eq_of_beq hb1, eq_of_beq hb2⟩)
  rw [cacheFind, cacheFind, List.find?]
  rw [hpred]

theorem cacheFind_append_last (k : CacheKey) (rec : CacheRecord) :
    ∀ l : CacheState, (∀ it ∈ l, it.1 ≠ k) →
      cacheFind (l ++ [(k, rec)]) k = some rec := by
  intro l
  induction l with
  | nil =>
    intro _
    rw [List.nil_append, cacheFind, List.find?]
    simp
  | cons x ys ih =>
    intro h
    rw [List.cons_append, cacheFind_cons_ne x _ k (h x (by simp))]
    exact ih (fun it hit => h it (by simp [hit]))

theorem removeKey_ne (cache : CacheState) (k : CacheKey) :
    ∀ it ∈ removeKey cache k, it.1 ≠ k := by
  intro it hit
  rw [removeKey] at hit
  have hp := List.of_mem_filter hit
  intro hk
  rw [hk] at hp
  simp at hp

theorem evict_keeps_last (szf : CacheRecord → Nat) (maxB : Nat) (k : CacheKey)
    (rec : CacheRecord) (hsz : szf rec ≤ maxB) :
    ∀ l : CacheState, (∀ it ∈ l, it.1 ≠ k) →
      cacheFind (evictLoop szf maxB (l ++ [(k, rec)])) k = some rec := by
  intro l
  induction l with
  | nil =>
    intro _
    rw [List.nil_append, evictLoop]
    have hcond : sumSizes szf [(k, rec)] ≤ maxB := by
      simpa [sumSizes] using hsz
    rw [if_pos hcond, cacheFind, List.find?]
    simp
  | cons x ys ih =>
    intro h
    rw [List.cons_append, evictLoop]
    split
    · rw [cacheFind_cons_ne x _ k (h x (by simp))]
      exact cacheFind_append_last k rec ys (fun it hit => h it (by simp [hit]))
    · exact ih (fun it hit => h it (by simp [hit]))

theorem sourceOfString_value (s : TranscriptSource) :
    sourceOfString s.value = some s := by
  cases s <;> rfl

theorem decode_encode (r : TranscriptResult) (t : String) (ht : r.text = some t)
    (hq0 : 0 ≤ r.quality_score) (hq1 : r.quality_score ≤ 1) :
    decodeRecord (encodeRecord r) =
      some (mkResult (some t) r.source r.quality_score r.metadata) := by
  rw [decodeRecord, encodeRecord, sourceOfString_value]
  show (if 0 ≤ r.quality_score ∧ r.quality_score ≤ 1 then
      some (mkResult r.text r.source r.quality_score r.metadata) else none) = _
  rw [if_pos ⟨hq0, hq1⟩, ht]

/-- Claim C5 counterexample: the cache record stores only text, source,
quality_score and metadata, so a result whose language field is set
comes back with language None: the round trip is not the identity on all
fields. -/
theorem spec_C5_counterexample :
    check_cache_pure defaultConfig
        (cache_transcript_caught envFail defaultConfig [] "p" "e" r5) "p" "e" =
      some (mkResult (some "hello world") TranscriptSource.whisper_local 1 []) ∧
    (mkResult (some "hello world") TranscriptSource.whisper_local 1 []).language = none ∧
    r5.language = some "en" ∧
    check_cache_pure defaultConfig
        (cache_transcript_caught envFail defaultConfig [] "p" "e" r5) "p" "e" ≠
      some r5 := by
  refine ⟨rfl, rfl, rfl, ?_⟩
  decide

/-- Claim C5 amended: put followed by get returns a result with the same
text, source, quality_score and metadata; language, duration_seconds and
word_count are not stored in the record and come back None (word_count
is None at every core construction site, since the word-count validator
never runs).  The hypotheses record that caching is enabled, the text is
truthy, the quality score is within the pydantic bounds, the record
write succeeds, and the single record fits in the byte budget (otherwise
the eviction loop would delete it). -/
theorem spec_C5_amended (env : Env) (cfg : TranscriptConfig) (cache : CacheState)
    (p e : String) (r : TranscriptResult) (t : String)
    (hflag : cfg.cache_transcripts = true)
    (ht : r.text = some t) (htne : t.data.isEmpty = false)
    (hq0 : 0 ≤ r.quality_score) (hq1 : r.quality_score ≤ 1)
    (hw : env.cacheWrite (cacheKey p e) = .ok ())
    (hsz : env.recordSize (encodeRecord r) ≤ cfg.max_cache_size_mb * 1024 * 1024) :
    check_cache_pure cfg (cache_transcript_caught env cfg cache p e r) p e =
      some (mkResult (some t) r.source r.quality_score r.metadata) := by
  have htr : truthyText r.text = true := by
    rw [ht]
    simpa [truthyText] using htne
  rw [cache_transcript_caught, hflag, htr]
  simp only [Bool.and_self, if_true, hw]
  rw [check_cache_pure, if_pos (by rw [hflag])]
  rw [evict_keeps_last env.recordSize _ (cacheKey p e) (encodeRecord r) hsz
      (removeKey cache (cacheKey p e)) (removeKey_ne cache (cacheKey p e))]
  rw [Option.bind]
  exact decode_encode r t ht hq0 hq1

/-- Witness for the amended claim C5 at the concrete populated result. -/
theorem spec_C5_amended_witness :
    check_cache_pure defaultConfig
        (cache_transcript_caught envFail defaultConfig [] "p" "e" r5) "p" "e" =
      some (mkResult (some "hello world") r5.source r5.quality_score r5.metadata) := by
  exact spec_C5_amended envFail defaultConfig [] "p" "e" r5 "hello world"
    rfl rfl rfl (by decide) (by decide) rfl (by decide)

/-! ## Claim C8: the hosted backend size cap -/

/-- Claim C8 amended: a file over the 25 MB cap makes transcribe return
None without raising (the _transcribe_large_file stub logs and returns
None), and on a cache miss the orchestrator then returns an unavailable
result whose metadata carries the generic message of the no-output
exception; the size-cap condition is not distinguishable there. -/
theorem spec_C8_amended (env : Env) (path lang prompt : String) (sz : Nat)
    (hsz : env.fileSize path = some sz) (hbig : sz > MAX_FILE_SIZE)
    (cfg : TranscriptConfig) (cache : CacheState) (p e a : String)
    (hflag : cfg.use_openai_whisper = true)
    (hmiss : check_cache_pure cfg cache p e = none)
    (hane : a.data.isEmpty = false)
    (hdl : env.download a e p = .ok (some path))
    (hinit : env.openaiInit = .ok ()) :
    openai_transcribe env path lang prompt = none ∧
    get_transcript env cfg cache p e (some a) none =
      .ok (unavailableErr noOutputMsg, cache) := by
  have htr : ∀ lg pr, openai_transcribe env path lg pr = none := by
    intro lg pr
    rw [openai_transcribe, openai_transcribe_body, hsz]
    simp [hbig]
  have hwhisper : try_whisper_caught env cfg a e p = unavailableErr noOutputMsg := by
    rw [try_whisper_caught, try_whisper_body, hdl]
    rw [hflag]
    simp only [if_true]
    rw [hinit, htr]
  refine ⟨htr lang prompt, ?_⟩
  rcases get_transcript_shape env cfg cache p e (some a) none with
    ⟨r, hr, _⟩ | ⟨hnone, r1, hcase, hg⟩
  · rw [hmiss] at hr
    exact Option.noConfusion hr
  · rcases hcase with ⟨h1, hau2⟩ | ⟨a2, hau2, hae2, h1⟩
    · rcases hau2 with h2 | ⟨a2, h2, hae2⟩
      · exact Option.noConfusion h2
      · have ha : a = a2 := Option.some.inj h2
        rw [← ha] at hae2
        rw [hane] at hae2
        exact Bool.noConfusion hae2
    · have ha : a2 = a := (Option.some.inj hau2).symm
      subst ha
      rw [hwhisper] at h1
      subst h1
      rw [hg]
      rfl

/-- Witness for the amended claim C8 at a concrete oversized file. -/
theorem spec_C8_amended_witness :
    openai_transcribe (envHosted "unused" (MAX_FILE_SIZE + 1)) "ep1.mp3" "en" "x" = none ∧
    get_transcript (envHosted "unused" (MAX_FILE_SIZE + 1)) defaultConfig [] "p" "e"
      (some "http://a.mp3") none = .ok (unavailableErr noOutputMsg, []) := by
  exact spec_C8_amended (envHosted "unused" (MAX_FILE_SIZE + 1)) "ep1.mp3" "en" "x"
    (MAX_FILE_SIZE + 1) rfl (by decide) defaultConfig [] "p" "e" "http://a.mp3"
    rfl rfl rfl rfl rfl

/-- Claim C8 counterexample: the orchestrator result after a size-cap
rejection is byte-for-byte the same unavailable result (same metadata)
as after a generic hosted-API exception, so the size-cap failure is not
distinguishable in metadata. -/
theorem spec_C8_counterexample :
    get_transcript (envHosted "unused" (MAX_FILE_SIZE + 1)) defaultConfig [] "p" "e"
        (some "http://a.mp3") none =
      get_transcript envHostedApiFail defaultConfig [] "p" "e"
        (some "http://a.mp3") none ∧
    get_transcript envHostedApiFail defaultConfig [] "p" "e"
        (some "http://a.mp3") none = .ok (unavailableErr noOutputMsg, []) := by
  exact ⟨rfl, rfl⟩

/-! ## Claim C9: the first-result fallback of the video search -/

/-- Claim C9 counterexample: the podcast is in the youtube_channels
allow-list, the search returns one candidate that matches nothing, yet
search_youtube_for_episode returns None: the first-result fallback at
lines 145-150 is guarded by the substring lenny on the lowercased
podcast name, not by allow-list membership. -/
theorem spec_C9_counterexample :
    channelsLookup "The Joe Rogan Experience" = some "joerogan" ∧
    search_youtube_for_episode envSearch "The Joe Rogan Experience"
      "Interesting Conversation About This Wild Story" = none := by
  exact ⟨by decide, by decide⟩

/-- Claim C9 amended: the fallback to the first search result applies
exactly to podcasts whose lowercased name contains lenny: for such a
podcast, when the search yields entries whose head is non-null and no
candidate passes the token-overlap or 30-character-prefix match,
search_youtube_for_episode returns the URL of the first result. -/
theorem spec_C9_amended (env : Env) (podcast episode : String) (e0 : Entry)
    (rest : List (Option Entry))
    (hlenny : pyIn "lenny" (lowerStr podcast) = true)
    (hsearch : env.ytSearch (buildQuery podcast episode) = .ok (some (some e0 :: rest)))
    (hnomatch : matchFirst episode (some e0 :: rest) = none) :
    search_youtube_for_episode env podcast episode = some (videoUrl e0.id) := by
  rw [search_youtube_for_episode, hsearch]
  simp [hnomatch, hlenny]

/-- Witness for the amended claim C9: the Lennybot podcast falls back to
the first result when nothing matches. -/
theorem spec_C9_amended_witness :
    search_youtube_for_episode envSearch "Lennybot" "xyz" =
      some (videoUrl "jr123456789") := by
  exact spec_C9_amended envSearch "Lennybot" "xyz" ⟨"jr123456789", "zzz"⟩ []
    (by decide) rfl (by decide)
